import Mathlib

/-!
Shallow embedding of the `earlydecoder` package of aztfmod/terraform-schema
(src/earlydecoder/load_module.go) together with the `module` package types
(ModuleSource from src/unnamed/part_000; the remaining types of that package
are modelled from the spec, as noted on each definition).

HCL expressions, attributes and blocks are modelled by the small inductive
types below: an expression is a string literal, a number literal, a bare
traversal, or anything else; the external collaborator contracts
(`gohcl.DecodeExpression` into a string, `hcl.AbsTraversalForExpr`,
`hclsyntax.ParseTraversalAbs`, `PartialContent` schema filtering) are given
executable definitions on this model. Source ranges are modelled as `Nat`
tags. Go maps are modelled as association lists with overwrite-on-insert;
the nondeterministic Go map iteration order of the fragment map in the
requirement merge is determinized to list order, which no per-name property
depends on.
-/

namespace TerraformSchema

/-- Diagnostic severity, mirroring hcl.DiagError / hcl.DiagWarning. -/
inductive Severity where
  | error
  | warning
deriving DecidableEq

/-- A diagnostic, mirroring hcl.Diagnostic: severity, summary, detail and an
optional subject source range (ranges are modelled as Nat tags). -/
structure Diagnostic where
  severity : Severity
  summary : String
  detail : String
  subject : Option Nat
deriving DecidableEq

/-- One step of an HCL traversal: a root name, an attribute-access step, or an
index step (hcl.TraverseRoot / hcl.TraverseAttr / hcl.TraverseIndex). -/
inductive TravStep where
  | root (name : String)
  | attr (name : String)
  | index
deriving DecidableEq

/-- The name carried by a traversal step; for the head of a traversal this is
hcl.Traversal.RootName(). -/
def TravStep.stepName : TravStep → String
  | .root n => n
  | .attr n => n
  | .index => ""

/-- Model of an HCL expression, at the granularity the decoder observes:
a static string literal, a number literal, a bare traversal expression, or
anything else (templates, objects, ...). -/
inductive Expr where
  | strLit (s : String)
  | numLit (n : Int)
  | traversal (steps : List TravStep)
  | other (tag : Nat)
deriving DecidableEq

/-- An attribute's decodable expression handle plus the expression's source
range, mirroring hcl.Attribute as used by the decoder. -/
structure Attribute where
  expr : Expr
  range : Nat
deriving DecidableEq

/-- An HCL block: type, labels, definition range, attributes and nested
blocks (a body flattened into the block, as PartialContent exposes it). -/
inductive Block where
  | mk (typ : String) (labels : List String) (defRange : Nat)
       (attrs : List (String × Attribute)) (blocks : List Block)

/-- The block's type string. -/
def Block.typ : Block → String
  | .mk t _ _ _ _ => t

/-- The block's labels. -/
def Block.labels : Block → List String
  | .mk _ l _ _ _ => l

/-- The block's definition range tag (hcl.Block.DefRange). -/
def Block.defRange : Block → Nat
  | .mk _ _ r _ _ => r

/-- The block body's attributes, keyed by name. -/
def Block.attrs : Block → List (String × Attribute)
  | .mk _ _ _ a _ => a

/-- The block body's nested blocks. -/
def Block.blocks : Block → List Block
  | .mk _ _ _ _ b => b

/-- Association-list lookup, modelling Go map read `l[k]`. -/
def alookup {α : Type} : List (String × α) → String → Option α
  | [], _ => none
  | (k, v) :: rest, key => if k = key then some v else alookup rest key

/-- Association-list insert with overwrite, modelling Go map write `l[k] = v`. -/
def ainsert {α : Type} : List (String × α) → String → α → List (String × α)
  | [], key, val => [(key, val)]
  | (k, v) :: rest, key, val =>
      if k = key then (key, val) :: rest else (k, v) :: ainsert rest key val

/-- Modelled from the spec (§3): `ProviderRef` of the `module` package, a value
object `{LocalName, Alias}` whose zero value represents "unresolved"; the
package file defining it is not among the sources. -/
structure ProviderRef where
  LocalName : String
  Alias : String
deriving DecidableEq

/-- Modelled from the spec (§3): `providerRequirement`, `{Source: optional
registry address string, VersionConstraints: ordered sequence of constraint
strings}`; its defining file is not among the sources. -/
structure providerRequirement where
  Source : String
  VersionConstraints : List String
deriving DecidableEq

/-- providerConfig represents a provider block in the configuration
(load_module.go:34). -/
structure providerConfig where
  Name : String
  Alias : String
deriving DecidableEq

/-- Modelled from the spec (§3): `ResourceRecord` `{Type, Name, Provider}`;
its defining file is not among the sources. -/
structure resource where
  «Type» : String
  Name : String
  Provider : ProviderRef
deriving DecidableEq

/-- Modelled from the spec (§3): resource records are "keyed deterministically
from `(kind-prefix, Type, Name)`". -/
def resource.MapKey (r : resource) : String :=
  "resource." ++ r.«Type» ++ "." ++ r.Name

/-- Modelled from the spec (§3): `DataSourceRecord` `{Type, Name, Provider}`;
its defining file is not among the sources. -/
structure dataSource where
  «Type» : String
  Name : String
  Provider : ProviderRef
deriving DecidableEq

/-- Modelled from the spec (§3): data-source records are "keyed
deterministically from `(kind-prefix, Type, Name)`". -/
def dataSource.MapKey (d : dataSource) : String :=
  "data." ++ d.«Type» ++ "." ++ d.Name

/-- ModuleSource of the `module` package (src/unnamed/part_000). -/
structure ModuleSource where
  Source : String
  Name : String
deriving DecidableEq

/-- MapKey returns a string that can be used to uniquely identify the receiver
in a map[string]*moduleSource (src/unnamed/part_000). -/
def ModuleSource.MapKey (m : ModuleSource) : String :=
  "module." ++ m.Name

/-- decodedModule is the type representing a decoded Terraform module
(load_module.go:13). -/
structure decodedModule where
  RequiredCore : List String
  ProviderRequirements : List (String × providerRequirement)
  ProviderConfigs : List (String × providerConfig)
  Resources : List (String × resource)
  DataSources : List (String × dataSource)
  ModuleSources : List (String × ModuleSource)
deriving DecidableEq

/-- newDecodedModule (load_module.go:22): the empty accumulator. -/
def newDecodedModule : decodedModule :=
  { RequiredCore := []
  , ProviderRequirements := []
  , ProviderConfigs := []
  , Resources := []
  , DataSources := []
  , ModuleSources := [] }

/-- gohcl.DecodeExpression into a Go string with a nil EvalContext: a string
literal decodes to itself, a number literal converts to its decimal rendering,
a traversal or any other non-static expression fails with one diagnostic. -/
def decodeExpressionToString (e : Expr) (r : Nat) : Option String × List Diagnostic :=
  match e with
  | .strLit s => (some s, [])
  | .numLit n => (some (toString n), [])
  | _ =>
      (none,
       [{ severity := Severity.error
        , summary := "Unsuitable value type"
        , detail := "Expression could not be decoded as a static string"
        , subject := some r }])

/-- hcl.AbsTraversalForExpr: succeeds exactly on a bare traversal expression,
yielding its steps. -/
def AbsTraversalForExpr : Expr → Option (List TravStep)
  | .traversal t => some t
  | _ => none

/-- Whether a character may start an HCL identifier. -/
def isIdentStart (c : Char) : Bool :=
  c.isAlpha || c = '_'

/-- Whether a character may continue an HCL identifier. -/
def isIdentChar (c : Char) : Bool :=
  c.isAlphanum || c = '_' || c = '-'

/-- Whether a character list forms an HCL identifier. -/
def isIdentChars (cs : List Char) : Bool :=
  match cs with
  | [] => false
  | c :: rest => isIdentStart c && rest.all isIdentChar

/-- Split a character list on the dot character; always returns at least one
(possibly empty) part. -/
def splitOnDot (cs : List Char) : List (List Char) :=
  match cs with
  | [] => [[]]
  | c :: rest =>
      if c = '.' then [] :: splitOnDot rest
      else
        match splitOnDot rest with
        | [] => [[c]]
        | p :: ps => (c :: p) :: ps

/-- hclsyntax.ParseTraversalAbs restricted to dot-separated identifier chains
(the forms the legacy quoted provider reference uses): "a.b.c" parses to a
root step followed by attribute steps; anything else fails. -/
def ParseTraversalAbs (s : String) : Option (List TravStep) :=
  match splitOnDot s.toList with
  | [] => none
  | p :: ps =>
      if isIdentChars p && ps.all isIdentChars then
        some (TravStep.root (String.mk p) :: ps.map (fun q => TravStep.attr (String.mk q)))
      else
        none

/-- The traversal decodeProviderAttribute ends up with (load_module.go:195-209):
first try the expression as a bare traversal; on failure decode it as a string
(diagnostics of that decode are discarded) and re-parse the string as an
absolute traversal. -/
def obtainTraversal (e : Expr) : Option (List TravStep) :=
  match AbsTraversalForExpr e with
  | some t => some t
  | none =>
      match (decodeExpressionToString e 0).fst with
      | some s => ParseTraversalAbs s
      | none => none

/-- decodeProviderAttribute (load_module.go:189): resolve a provider attribute
into a ProviderRef, with one "Invalid provider reference" diagnostic when no
non-empty traversal is obtained. -/
def decodeProviderAttribute (a : Attribute) : ProviderRef × List Diagnostic :=
  match obtainTraversal a.expr with
  | some (st :: rest) =>
      let aliasVal :=
        match rest with
        | TravStep.attr n :: _ => n
        | _ => ""
      ({ LocalName := st.stepName, Alias := aliasVal }, [])
  | _ =>
      ({ LocalName := "", Alias := "" },
       [{ severity := Severity.error
        , summary := "Invalid provider reference"
        , detail := "Provider argument requires a provider name followed by an optional alias, like \"aws.foo\"."
        , subject := some a.range }])

/-- Modelled from the spec (§4.3b): inferProviderNameFromType, referenced at
load_module.go:145 and :168 but defined in a package file not among the
sources: "given a resource/data-source type string, return the substring
preceding its first `_` character, or the full string if no `_` is present". -/
def inferProviderNameFromType (typeName : String) : String :=
  String.mk (typeName.toList.takeWhile (fun c => c ≠ '_'))

/-- The diagnostic of load_module.go:76-81 for conflicting required_providers
sources; Detail is the rendering of the Go format string
"Found multiple source attributes for provider %s: %q, %q". -/
def multipleSourceDiag (name s1 s2 : String) (r : Nat) : Diagnostic :=
  { severity := Severity.error
  , summary := "Multiple provider source attributes"
  , detail := "Found multiple source attributes for provider " ++ name ++
      ": \"" ++ s1 ++ "\", \"" ++ s2 ++ "\""
  , subject := some r }

/-- The per-fragment body of the merge loop of load_module.go:69-88: merge one
required_providers fragment `req` for provider `name` into the accumulator;
`defRange` is the DefRange of the enclosing required_providers block. -/
def mergeProviderRequirement (mod : decodedModule) (defRange : Nat)
    (name : String) (req : providerRequirement) : decodedModule × List Diagnostic :=
  match alookup mod.ProviderRequirements name with
  | none =>
      ({ mod with ProviderRequirements := ainsert mod.ProviderRequirements name req }, [])
  | some existing =>
      let sourceDiags : String × List Diagnostic :=
        if req.Source = "" then
          (existing.Source, [])
        else if existing.Source ≠ "" ∧ existing.Source ≠ req.Source then
          (existing.Source, [multipleSourceDiag name existing.Source req.Source defRange])
        else
          (req.Source, [])
      let merged : providerRequirement :=
        { Source := sourceDiags.fst
        , VersionConstraints := existing.VersionConstraints ++ req.VersionConstraints }
      let newReqs := ainsert mod.ProviderRequirements name merged
      ({ mod with ProviderRequirements := newReqs }, sourceDiags.snd)

/-- One iteration of the merge loop, threading the accumulator and appending
the iteration's diagnostics. -/
def mergeStep (defRange : Nat) (acc : decodedModule × List Diagnostic)
    (nr : String × providerRequirement) : decodedModule × List Diagnostic :=
  ((mergeProviderRequirement acc.fst defRange nr.fst nr.snd).fst,
   acc.snd ++ (mergeProviderRequirement acc.fst defRange nr.fst nr.snd).snd)

/-- The merge loop of load_module.go:69-89 over a decoded fragment map
(determinized to list order). -/
def mergeProviderRequirements (mod : decodedModule) (defRange : Nat)
    (reqs : List (String × providerRequirement)) : decodedModule × List Diagnostic :=
  reqs.foldl (mergeStep defRange) (mod, [])

/-- Modelled from the spec (§4.1): decodeRequiredProvidersBlock, the "external
helper" called at load_module.go:67, is defined in a package file not among
the sources; the spec only states that a required_providers block "is decoded
into a mapping of provider-name → requirement fragment". We model the legacy
form `name = "constraint"`: each attribute whose expression decodes as a
static string becomes a fragment with empty source and that one constraint;
any other attribute contributes a decode diagnostic and no fragment. -/
def decodeRequiredProvidersBlock (b : Block) :
    List (String × providerRequirement) × List Diagnostic :=
  b.attrs.foldl
    (fun acc na =>
      match decodeExpressionToString na.snd.expr na.snd.range with
      | (some s, _) =>
          (acc.fst ++ [(na.fst, { Source := "", VersionConstraints := [s] })], acc.snd)
      | (none, ds) => (acc.fst, acc.snd ++ ds))
    ([], [])

/-- One iteration of the loop of load_module.go:64-91 over the nested blocks
of a terraform block: decode a required_providers block and merge it. -/
def requiredProvidersStep (acc : decodedModule × List Diagnostic) (ib : Block) :
    decodedModule × List Diagnostic :=
  ((mergeProviderRequirements acc.fst ib.defRange (decodeRequiredProvidersBlock ib).fst).fst,
   acc.snd ++ (decodeRequiredProvidersBlock ib).snd ++
     (mergeProviderRequirements acc.fst ib.defRange (decodeRequiredProvidersBlock ib).fst).snd)

/-- The `terraform` case of the dispatcher (load_module.go:51-91):
required_version handling followed by the required_providers merge over the
nested blocks selected by terraformBlockSchema. -/
def processTerraformBlock (mod : decodedModule) (b : Block) :
    decodedModule × List Diagnostic :=
  let step1 : decodedModule × List Diagnostic :=
    match alookup b.attrs "required_version" with
    | none => (mod, [])
    | some a =>
        match decodeExpressionToString a.expr a.range with
        | (some v, ds) => ({ mod with RequiredCore := mod.RequiredCore ++ [v] }, ds)
        | (none, ds) => (mod, ds)
  (b.blocks.filter (fun ib => ib.typ = "required_providers")).foldl
    requiredProvidersStep step1

/-- The `provider` case of the dispatcher (load_module.go:92-124): ensure a
requirement entry for the label name, append a decoded version constraint,
compute the provider-config key from the alias, store the providerConfig. -/
def processProviderBlock (mod : decodedModule) (b : Block) :
    decodedModule × List Diagnostic :=
  let name := b.labels.headD ""
  let mod1 :=
    match alookup mod.ProviderRequirements name with
    | some _ => mod
    | none =>
        let fresh : providerRequirement := { Source := "", VersionConstraints := [] }
        let newReqs := ainsert mod.ProviderRequirements name fresh
        { mod with ProviderRequirements := newReqs }
  let step2 : decodedModule × List Diagnostic :=
    match alookup b.attrs "version" with
    | none => (mod1, [])
    | some a =>
        match decodeExpressionToString a.expr a.range with
        | (some v, ds) =>
            match alookup mod1.ProviderRequirements name with
            | some ex =>
                let extended : providerRequirement :=
                  { Source := ex.Source
                  , VersionConstraints := ex.VersionConstraints ++ [v] }
                let newReqs := ainsert mod1.ProviderRequirements name extended
                ({ mod1 with ProviderRequirements := newReqs }, ds)
            | none => (mod1, ds)
        | (none, ds) => (mod1, ds)
  let aliasStep : String × List Diagnostic :=
    match alookup b.attrs "alias" with
    | none => ("", [])
    | some a =>
        match decodeExpressionToString a.expr a.range with
        | (some al, ds) => (al, ds)
        | (none, ds) => ("", ds)
  let aliasVal := aliasStep.fst
  let providerKey := if aliasVal ≠ "" then name ++ "." ++ aliasVal else name
  let cfg : providerConfig := { Name := name, Alias := aliasVal }
  let newCfgs := ainsert step2.fst.ProviderConfigs providerKey cfg
  ({ step2.fst with ProviderConfigs := newCfgs }, step2.snd ++ aliasStep.snd)

/-- The `data` case of the dispatcher (load_module.go:126-147): build and store
a dataSource record; its Provider comes from the provider attribute when
present, else from inferProviderNameFromType. -/
def processDataBlock (mod : decodedModule) (b : Block) :
    decodedModule × List Diagnostic :=
  let ty := b.labels.headD ""
  let nm := (b.labels.drop 1).headD ""
  let provDiags : ProviderRef × List Diagnostic :=
    match alookup b.attrs "provider" with
    | some a => decodeProviderAttribute a
    | none => ({ LocalName := inferProviderNameFromType ty, Alias := "" }, [])
  let d : dataSource := { «Type» := ty, Name := nm, Provider := provDiags.fst }
  ({ mod with DataSources := ainsert mod.DataSources d.MapKey d }, provDiags.snd)

/-- The `resource` case of the dispatcher (load_module.go:149-170): build and
store a resource record; its Provider comes from the provider attribute when
present, else from inferProviderNameFromType. -/
def processResourceBlock (mod : decodedModule) (b : Block) :
    decodedModule × List Diagnostic :=
  let ty := b.labels.headD ""
  let nm := (b.labels.drop 1).headD ""
  let provDiags : ProviderRef × List Diagnostic :=
    match alookup b.attrs "provider" with
    | some a => decodeProviderAttribute a
    | none => ({ LocalName := inferProviderNameFromType ty, Alias := "" }, [])
  let r : resource := { «Type» := ty, Name := nm, Provider := provDiags.fst }
  ({ mod with Resources := ainsert mod.Resources r.MapKey r }, provDiags.snd)

/-- The `module` case of the dispatcher (load_module.go:171-182): store a
ModuleSource record for the call name; a decodable source attribute fills its
Source, a failing decode leaves it empty and yields the decode diagnostics. -/
def processModuleBlock (mod : decodedModule) (b : Block) :
    decodedModule × List Diagnostic :=
  let name := b.labels.headD ""
  let srcDiags : String × List Diagnostic :=
    match alookup b.attrs "source" with
    | none => ("", [])
    | some a =>
        match decodeExpressionToString a.expr a.range with
        | (some s, _) => (s, [])
        | (none, ds) => ("", ds)
  let ms : ModuleSource := { Source := srcDiags.fst, Name := name }
  ({ mod with ModuleSources := ainsert mod.ModuleSources ms.MapKey ms }, srcDiags.snd)

/-- The switch of load_module.go:48-184 dispatching one block. -/
def processBlock (mod : decodedModule) (b : Block) : decodedModule × List Diagnostic :=
  if b.typ = "terraform" then processTerraformBlock mod b
  else if b.typ = "provider" then processProviderBlock mod b
  else if b.typ = "data" then processDataBlock mod b
  else if b.typ = "resource" then processResourceBlock mod b
  else if b.typ = "module" then processModuleBlock mod b
  else (mod, [])

/-- Modelled from the spec (§4.1): rootSchema, defined in a package file not
among the sources, restricts "recognized top-level block kinds to `terraform`,
`provider`, `data`, `resource`, `module`" with the label shapes of §4.1;
PartialContent keeps exactly the blocks matching it. -/
def rootSchemaAllows (b : Block) : Bool :=
  (b.typ == "terraform" && b.labels.length == 0) ||
  (b.typ == "provider" && b.labels.length == 1) ||
  (b.typ == "data" && b.labels.length == 2) ||
  (b.typ == "resource" && b.labels.length == 2) ||
  (b.typ == "module" && b.labels.length == 1)

/-- One iteration of the dispatcher loop of load_module.go:48-184, threading
the accumulator and appending the block's diagnostics. -/
def dispatchStep (acc : decodedModule × List Diagnostic) (b : Block) :
    decodedModule × List Diagnostic :=
  ((processBlock acc.fst b).fst, acc.snd ++ (processBlock acc.fst b).snd)

/-- loadModuleFromFile (load_module.go:43): interpret one file's blocks into
the given accumulator, returning the new accumulator and the diagnostics in
emission order (a file is its root-level block list). -/
def loadModuleFromFile (file : List Block) (mod : decodedModule) :
    decodedModule × List Diagnostic :=
  (file.filter rootSchemaAllows).foldl dispatchStep (mod, [])

end TerraformSchema

namespace TerraformSchema

theorem alookup_ainsert {α : Type} (l : List (String × α)) (k key : String) (v : α) :
    alookup (ainsert l k v) key = if k = key then some v else alookup l key := by
  induction l with
  | nil => simp [ainsert, alookup]
  | cons hd tl ih =>
      obtain ⟨k0, v0⟩ := hd
      simp only [ainsert]
      by_cases h0 : k0 = k
      · subst h0
        simp only [if_pos rfl, alookup]
        by_cases h1 : k0 = key <;> simp [h1]
      · simp only [if_neg h0, alookup, ih]
        by_cases h1 : k0 = key
        · subst h1
          have hk : ¬ (k = k0) := fun h => h0 h.symm
          simp [hk]
        · simp [h1]

theorem alookup_ainsert_self {α : Type} (l : List (String × α)) (k : String) (v : α) :
    alookup (ainsert l k v) k = some v := by
  simp [alookup_ainsert]

theorem alookup_ainsert_ne {α : Type} (l : List (String × α)) (k key : String) (v : α)
    (h : k ≠ key) : alookup (ainsert l k v) key = alookup l key := by
  simp [alookup_ainsert, h]

/-- C1: merging a required_providers fragment for an already-present provider
whose stored source is non-empty and differs from the fragment's non-empty
source emits exactly one "Multiple provider source attributes" error naming
both values, keeps the stored source, and still appends the fragment's
version constraints. -/
theorem c1_conflicting_source_merge (mod : decodedModule) (dr : Nat) (n : String)
    (ex req : providerRequirement)
    (hex : alookup mod.ProviderRequirements n = some ex)
    (hs : ex.Source ≠ "") (hs2 : req.Source ≠ "") (hne : req.Source ≠ ex.Source) :
    alookup (mergeProviderRequirement mod dr n req).fst.ProviderRequirements n =
      some { Source := ex.Source
           , VersionConstraints := ex.VersionConstraints ++ req.VersionConstraints } ∧
    (mergeProviderRequirement mod dr n req).snd =
      [{ severity := Severity.error
       , summary := "Multiple provider source attributes"
       , detail := "Found multiple source attributes for provider " ++ n ++
           ": \"" ++ ex.Source ++ "\", \"" ++ req.Source ++ "\""
       , subject := some dr }] := by
  have hcond : ex.Source ≠ "" ∧ ex.Source ≠ req.Source := ⟨hs, Ne.symm hne⟩
  constructor
  · simp [mergeProviderRequirement, hex, hs2, hcond, alookup_ainsert_self]
  · simp [mergeProviderRequirement, hex, hs2, hcond, multipleSourceDiag]

/-- Witness for c1_conflicting_source_merge at a concrete conflicting merge. -/
theorem c1_conflicting_source_merge_witness :
    alookup (mergeProviderRequirement
        { newDecodedModule with ProviderRequirements :=
            [("aws", { Source := "hashicorp/aws", VersionConstraints := ["~> 1.0"] })] }
        7 "aws"
        { Source := "example/aws", VersionConstraints := ["~> 2.0"] }).fst.ProviderRequirements
        "aws" =
      some { Source := "hashicorp/aws"
           , VersionConstraints := ["~> 1.0"] ++ ["~> 2.0"] } ∧
    (mergeProviderRequirement
        { newDecodedModule with ProviderRequirements :=
            [("aws", { Source := "hashicorp/aws", VersionConstraints := ["~> 1.0"] })] }
        7 "aws"
        { Source := "example/aws", VersionConstraints := ["~> 2.0"] }).snd =
      [{ severity := Severity.error
       , summary := "Multiple provider source attributes"
       , detail := "Found multiple source attributes for provider " ++ "aws" ++
           ": \"" ++ "hashicorp/aws" ++ "\", \"" ++ "example/aws" ++ "\""
       , subject := some 7 }] :=
  c1_conflicting_source_merge _ 7 "aws"
    { Source := "hashicorp/aws", VersionConstraints := ["~> 1.0"] }
    { Source := "example/aws", VersionConstraints := ["~> 2.0"] }
    (by decide) (by decide) (by decide) (by decide)

/-- C2: merging a fragment with no source conflict (fragment source empty,
stored source empty, or sources equal) yields no diagnostics, sets the stored
source to the fragment's source when that is non-empty, and appends the
fragment's constraints in order; a fragment for an absent name is inserted
unchanged. -/
theorem c2_merge_without_conflict (mod : decodedModule) (dr : Nat) (n : String)
    (req : providerRequirement) :
    (alookup mod.ProviderRequirements n = none →
      mergeProviderRequirement mod dr n req =
        ({ mod with ProviderRequirements := ainsert mod.ProviderRequirements n req }, [])) ∧
    (∀ ex, alookup mod.ProviderRequirements n = some ex →
      (req.Source = "" ∨ ex.Source = "" ∨ ex.Source = req.Source) →
      (mergeProviderRequirement mod dr n req).snd = [] ∧
      alookup (mergeProviderRequirement mod dr n req).fst.ProviderRequirements n =
        some { Source := if req.Source = "" then ex.Source else req.Source
             , VersionConstraints := ex.VersionConstraints ++ req.VersionConstraints }) := by
  constructor
  · intro h
    simp [mergeProviderRequirement, h]
  · intro ex hex hcase
    by_cases hre : req.Source = ""
    · constructor
      · simp [mergeProviderRequirement, hex, hre]
      · simp [mergeProviderRequirement, hex, hre, alookup_ainsert_self]
    · have hcond : ¬ (ex.Source ≠ "" ∧ ex.Source ≠ req.Source) := by
        rcases hcase with h | h | h
        · exact absurd h hre
        · intro hc
          exact hc.1 h
        · intro hc
          exact hc.2 h
      constructor
      · simp [mergeProviderRequirement, hex, hre, hcond]
      · simp [mergeProviderRequirement, hex, hre, hcond, alookup_ainsert_self]

/-- Witness for c2_merge_without_conflict: identical non-empty sources merge
with zero diagnostics and concatenated constraints. -/
theorem c2_merge_without_conflict_witness :
    (mergeProviderRequirement
        { newDecodedModule with ProviderRequirements :=
            [("aws", { Source := "hashicorp/aws", VersionConstraints := ["~> 1.0"] })] }
        3 "aws"
        { Source := "hashicorp/aws", VersionConstraints := ["~> 2.0"] }).snd = [] ∧
    alookup (mergeProviderRequirement
        { newDecodedModule with ProviderRequirements :=
            [("aws", { Source := "hashicorp/aws", VersionConstraints := ["~> 1.0"] })] }
        3 "aws"
        { Source := "hashicorp/aws", VersionConstraints := ["~> 2.0"] }).fst.ProviderRequirements
        "aws" =
      some { Source := if ("hashicorp/aws" : String) = "" then "hashicorp/aws" else "hashicorp/aws"
           , VersionConstraints := ["~> 1.0"] ++ ["~> 2.0"] } :=
  (c2_merge_without_conflict
      { newDecodedModule with ProviderRequirements :=
          [("aws", { Source := "hashicorp/aws", VersionConstraints := ["~> 1.0"] })] }
      3 "aws"
      { Source := "hashicorp/aws", VersionConstraints := ["~> 2.0"] }).2
    { Source := "hashicorp/aws", VersionConstraints := ["~> 1.0"] }
    (by decide) (Or.inr (Or.inr (by decide)))

end TerraformSchema

namespace TerraformSchema

theorem parseTraversalAbs_shape {s : String} {tr : List TravStep}
    (h : ParseTraversalAbs s = some tr) :
    ∃ p ps, tr = TravStep.root (String.mk p) ::
      List.map (fun q => TravStep.attr (String.mk q)) ps := by
  unfold ParseTraversalAbs at h
  split at h
  · exact Option.noConfusion h
  · split at h
    · exact ⟨_, _, (Option.some.inj h).symm⟩
    · exact Option.noConfusion h

/-- C3: resolving a provider attribute whose expression is the quoted string
literal t gives the same ProviderRef and the same number of diagnostics as
resolving one whose expression is the bare traversal parsed from t. -/
theorem c3_quoted_equals_bare (t : String) (tr : List TravStep) (r1 r2 : Nat)
    (h : ParseTraversalAbs t = some tr) :
    (decodeProviderAttribute { expr := Expr.strLit t, range := r1 }).fst =
      (decodeProviderAttribute { expr := Expr.traversal tr, range := r2 }).fst ∧
    (decodeProviderAttribute { expr := Expr.strLit t, range := r1 }).snd.length =
      (decodeProviderAttribute { expr := Expr.traversal tr, range := r2 }).snd.length := by
  obtain ⟨p, ps, rfl⟩ := parseTraversalAbs_shape h
  have h1 : obtainTraversal (Expr.strLit t) =
      some (TravStep.root (String.mk p) ::
        List.map (fun q => TravStep.attr (String.mk q)) ps) := by
    simp [obtainTraversal, AbsTraversalForExpr, decodeExpressionToString, h]
  have h2 : obtainTraversal (Expr.traversal (TravStep.root (String.mk p) ::
      List.map (fun q => TravStep.attr (String.mk q)) ps)) =
      some (TravStep.root (String.mk p) ::
        List.map (fun q => TravStep.attr (String.mk q)) ps) := rfl
  constructor <;> simp [decodeProviderAttribute, h1, h2]

/-- Witness for c3_quoted_equals_bare on the legacy quoted reference
"aws.east". -/
theorem c3_quoted_equals_bare_witness :
    (decodeProviderAttribute { expr := Expr.strLit "aws.east", range := 1 }).fst =
      (decodeProviderAttribute { expr := Expr.traversal [TravStep.root "aws", TravStep.attr "east"], range := 2 }).fst ∧
    (decodeProviderAttribute { expr := Expr.strLit "aws.east", range := 1 }).snd.length =
      (decodeProviderAttribute { expr := Expr.traversal [TravStep.root "aws", TravStep.attr "east"], range := 2 }).snd.length :=
  c3_quoted_equals_bare "aws.east"
    [TravStep.root "aws", TravStep.attr "east"] 1 2 (by decide)

/-- C4: a provider attribute from which neither decode attempt obtains a
non-empty traversal resolves to the zero ProviderRef plus exactly one
"Invalid provider reference" error anchored at the expression's range. -/
theorem c4_invalid_provider_reference (a : Attribute)
    (h : ∀ t, obtainTraversal a.expr = some t → t = []) :
    decodeProviderAttribute a =
      ({ LocalName := "", Alias := "" },
       [{ severity := Severity.error
        , summary := "Invalid provider reference"
        , detail := "Provider argument requires a provider name followed by an optional alias, like \"aws.foo\"."
        , subject := some a.range }]) := by
  rcases ho : obtainTraversal a.expr with _ | t
  · simp [decodeProviderAttribute, ho]
  · have ht := h t ho
    subst ht
    simp [decodeProviderAttribute, ho]

/-- Witness for c4_invalid_provider_reference at a non-reference, non-string
expression. -/
theorem c4_invalid_provider_reference_witness :
    decodeProviderAttribute { expr := Expr.other 0, range := 5 } =
      ({ LocalName := "", Alias := "" },
       [{ severity := Severity.error
        , summary := "Invalid provider reference"
        , detail := "Provider argument requires a provider name followed by an optional alias, like \"aws.foo\"."
        , subject := some 5 }]) :=
  c4_invalid_provider_reference { expr := Expr.other 0, range := 5 }
    (fun t ht => by
      simp [obtainTraversal, AbsTraversalForExpr, decodeExpressionToString] at ht)

/-- C5: a provider attribute from which either decode attempt obtains a
non-empty traversal resolves, with zero diagnostics, to the first step's name
as LocalName and, as Alias, the second step's attribute name when the second
step exists and is attribute-access, else the empty string. -/
theorem c5_provider_ref_extraction (a : Attribute) (st : TravStep) (rest : List TravStep)
    (h : obtainTraversal a.expr = some (st :: rest)) :
    decodeProviderAttribute a =
      ({ LocalName := st.stepName
       , Alias := match rest with
                  | TravStep.attr n :: _ => n
                  | _ => "" }, []) := by
  cases rest with
  | nil => simp [decodeProviderAttribute, h]
  | cons s2 rest2 => cases s2 <;> simp [decodeProviderAttribute, h]

/-- Witness for c5_provider_ref_extraction on the bare traversal aws.east. -/
theorem c5_provider_ref_extraction_witness :
    decodeProviderAttribute
        { expr := Expr.traversal [TravStep.root "aws", TravStep.attr "east"], range := 0 } =
      ({ LocalName := "aws", Alias := "east" }, []) :=
  c5_provider_ref_extraction
    { expr := Expr.traversal [TravStep.root "aws", TravStep.attr "east"], range := 0 }
    (TravStep.root "aws") [TravStep.attr "east"] rfl

end TerraformSchema

namespace TerraformSchema

theorem takeWhile_eq_self_of_all {p : Char → Bool} {l : List Char}
    (h : ∀ c ∈ l, p c = true) : l.takeWhile p = l := by
  induction l with
  | nil => rfl
  | cons c cs ih =>
      have hc : p c = true := h c (List.mem_cons_self c cs)
      have hcs : List.takeWhile p cs = cs := ih fun x hx => h x (List.mem_cons_of_mem c hx)
      simp [List.takeWhile, hc, hcs]

theorem takeWhile_append_stop {p : Char → Bool} (pre : List Char) (c : Char)
    (post : List Char) (hpre : ∀ x ∈ pre, p x = true) (hc : p c = false) :
    (pre ++ c :: post).takeWhile p = pre := by
  induction pre with
  | nil => simp [List.takeWhile, hc]
  | cons x xs ih =>
      have hx : p x = true := hpre x (List.mem_cons_self x xs)
      have hxs := ih fun y hy => hpre y (List.mem_cons_of_mem x hy)
      simp [List.takeWhile, hx, hxs]

/-- C6: provider inference returns the part of the type string strictly before
its first underscore (the whole string when it has none), and a resource of
type aws_instance with no provider attribute is stored with inferred provider
local name "aws", empty alias and no diagnostics. -/
theorem c6_infer_provider_name (s : String) :
    (('_' ∈ s.toList → False) → inferProviderNameFromType s = s) ∧
    (∀ pre post, s.toList = pre ++ '_' :: post → ('_' ∈ pre → False) →
      inferProviderNameFromType s = String.mk pre) ∧
    (∀ mod dr,
      alookup (loadModuleFromFile [Block.mk "resource" ["aws_instance", "web"] dr [] []]
          mod).fst.Resources "resource.aws_instance.web" =
        some { «Type» := "aws_instance", Name := "web"
             , Provider := { LocalName := "aws", Alias := "" } } ∧
      (loadModuleFromFile [Block.mk "resource" ["aws_instance", "web"] dr [] []] mod).snd =
        []) := by
  refine ⟨?_, ?_, ?_⟩
  · intro h
    have hall : ∀ c ∈ s.toList, (fun c => decide (c ≠ '_')) c = true := by
      intro c hc
      simp only [decide_eq_true_eq]
      intro heq
      exact h (heq ▸ hc)
    unfold inferProviderNameFromType
    rw [takeWhile_eq_self_of_all hall]
    cases s
    rfl
  · intro pre post hsplit hpre
    have hall : ∀ x ∈ pre, (fun c => decide (c ≠ '_')) x = true := by
      intro x hx
      simp only [decide_eq_true_eq]
      intro heq
      exact hpre (heq ▸ hx)
    have hstop : (fun c => decide (c ≠ '_')) '_' = false := by simp
    unfold inferProviderNameFromType
    rw [hsplit, takeWhile_append_stop pre '_' post hall hstop]
  · intro mod dr
    have hinf : inferProviderNameFromType "aws_instance" = "aws" := by decide
    have hload : loadModuleFromFile [Block.mk "resource" ["aws_instance", "web"] dr [] []]
        mod = processBlock mod (Block.mk "resource" ["aws_instance", "web"] dr [] []) := by
      simp [loadModuleFromFile, rootSchemaAllows, Block.typ, Block.labels, dispatchStep]
    rw [hload]
    have hproc : processBlock mod (Block.mk "resource" ["aws_instance", "web"] dr [] []) =
        processResourceBlock mod (Block.mk "resource" ["aws_instance", "web"] dr [] []) := by
      simp [processBlock, Block.typ]
    rw [hproc]
    constructor
    · simp [processResourceBlock, Block.labels, Block.attrs, alookup, hinf,
        resource.MapKey, alookup_ainsert_self]
    · simp [processResourceBlock, Block.attrs, alookup]

/-- Witness for c6_infer_provider_name at the type strings aws_instance and
instance and the one-resource file over the empty accumulator. -/
theorem c6_infer_provider_name_witness :
    inferProviderNameFromType "instance" = "instance" ∧
    inferProviderNameFromType "aws_instance" = String.mk ['a', 'w', 's'] ∧
    alookup (loadModuleFromFile [Block.mk "resource" ["aws_instance", "web"] 0 [] []]
        newDecodedModule).fst.Resources "resource.aws_instance.web" =
      some { «Type» := "aws_instance", Name := "web"
           , Provider := { LocalName := "aws", Alias := "" } } :=
  ⟨(c6_infer_provider_name "instance").1 (by decide),
   (c6_infer_provider_name "aws_instance").2.1 ['a', 'w', 's']
     ['i', 'n', 's', 't', 'a', 'n', 'c', 'e'] (by decide) (by decide),
   ((c6_infer_provider_name "aws_instance").2.2 newDecodedModule 0).1⟩

end TerraformSchema


namespace TerraformSchema

/-- A resource block carrying one provider attribute given as a bare root-name
traversal; input shape used to exhibit key-collision behavior. -/
def resBlockWithProvider (t n p : String) (dr r : Nat) : Block :=
  Block.mk "resource" [t, n] dr
    [("provider", { expr := Expr.traversal [TravStep.root p], range := r })] []

/-- A data block carrying one provider attribute given as a bare root-name
traversal; input shape used to exhibit key-collision behavior. -/
def dataBlockWithProvider (t n p : String) (dr r : Nat) : Block :=
  Block.mk "data" [t, n] dr
    [("provider", { expr := Expr.traversal [TravStep.root p], range := r })] []

/-- A module block carrying one source attribute given as a string literal;
input shape used to exhibit key-collision behavior. -/
def moduleBlockWithSource (n s : String) (dr r : Nat) : Block :=
  Block.mk "module" [n] dr [("source", { expr := Expr.strLit s, range := r })] []

/-- The resource record such a block decodes to. -/
def resRecord (t n p : String) : resource :=
  { «Type» := t, Name := n, Provider := { LocalName := p, Alias := "" } }

/-- The data-source record such a block decodes to. -/
def dataRecord (t n p : String) : dataSource :=
  { «Type» := t, Name := n, Provider := { LocalName := p, Alias := "" } }

/-- C7: two resource declarations with the same (type, name) pair — in one
pass or across two accumulator-sharing passes — leave exactly the second
declaration's record under the shared key, with no diagnostic about the
collision; likewise for data-source and module-call records. -/
theorem c7_overwrite_on_collision (mod : decodedModule) (t n p1 p2 s1 s2 : String)
    (r1 r2 dr1 dr2 : Nat) :
    (alookup (loadModuleFromFile
        [resBlockWithProvider t n p1 dr1 r1, resBlockWithProvider t n p2 dr2 r2]
        mod).fst.Resources ("resource." ++ t ++ "." ++ n) = some (resRecord t n p2) ∧
     (loadModuleFromFile
        [resBlockWithProvider t n p1 dr1 r1, resBlockWithProvider t n p2 dr2 r2]
        mod).snd = []) ∧
    (alookup (loadModuleFromFile [resBlockWithProvider t n p2 dr2 r2]
        (loadModuleFromFile [resBlockWithProvider t n p1 dr1 r1] mod).fst).fst.Resources
        ("resource." ++ t ++ "." ++ n) = some (resRecord t n p2) ∧
     (loadModuleFromFile [resBlockWithProvider t n p2 dr2 r2]
        (loadModuleFromFile [resBlockWithProvider t n p1 dr1 r1] mod).fst).snd = []) ∧
    (alookup (loadModuleFromFile
        [dataBlockWithProvider t n p1 dr1 r1, dataBlockWithProvider t n p2 dr2 r2]
        mod).fst.DataSources ("data." ++ t ++ "." ++ n) = some (dataRecord t n p2) ∧
     (loadModuleFromFile
        [dataBlockWithProvider t n p1 dr1 r1, dataBlockWithProvider t n p2 dr2 r2]
        mod).snd = []) ∧
    (alookup (loadModuleFromFile
        [moduleBlockWithSource n s1 dr1 r1, moduleBlockWithSource n s2 dr2 r2]
        mod).fst.ModuleSources ("module." ++ n) = some { Source := s2, Name := n } ∧
     (loadModuleFromFile
        [moduleBlockWithSource n s1 dr1 r1, moduleBlockWithSource n s2 dr2 r2]
        mod).snd = []) := by
  have hres2 : ∀ (m : decodedModule) (p q : String) (da ra db rb : Nat),
      loadModuleFromFile [resBlockWithProvider t n p da ra, resBlockWithProvider t n q db rb]
          m =
        ({ m with Resources :=
            ainsert (ainsert m.Resources ("resource." ++ t ++ "." ++ n) (resRecord t n p)) ("resource." ++ t ++ "." ++ n) (resRecord t n q) }, []) :=
    fun m p q da ra db rb => rfl
  have hres1 : ∀ (m : decodedModule) (p : String) (da ra : Nat),
      loadModuleFromFile [resBlockWithProvider t n p da ra] m =
        ({ m with Resources :=
            ainsert m.Resources ("resource." ++ t ++ "." ++ n) (resRecord t n p) }, []) :=
    fun m p da ra => rfl
  have hdat2 : ∀ (m : decodedModule) (p q : String) (da ra db rb : Nat),
      loadModuleFromFile [dataBlockWithProvider t n p da ra, dataBlockWithProvider t n q db rb]
          m =
        ({ m with DataSources :=
            ainsert (ainsert m.DataSources ("data." ++ t ++ "." ++ n) (dataRecord t n p)) ("data." ++ t ++ "." ++ n) (dataRecord t n q) }, []) :=
    fun m p q da ra db rb => rfl
  have hmod2 : ∀ (m : decodedModule) (u v : String) (da ra db rb : Nat),
      loadModuleFromFile [moduleBlockWithSource n u da ra, moduleBlockWithSource n v db rb]
          m =
        ({ m with ModuleSources :=
            ainsert (ainsert m.ModuleSources ("module." ++ n) { Source := u, Name := n }) ("module." ++ n) { Source := v, Name := n } }, []) :=
    fun m u v da ra db rb => rfl
  refine ⟨⟨?_, ?_⟩, ⟨?_, ?_⟩, ⟨?_, ?_⟩, ⟨?_, ?_⟩⟩
  · rw [hres2]
    exact alookup_ainsert_self _ _ _
  · rw [hres2]
  · rw [hres1, hres1]
    exact alookup_ainsert_self _ _ _
  · rw [hres1, hres1]
  · rw [hdat2]
    exact alookup_ainsert_self _ _ _
  · rw [hdat2]
  · rw [hmod2]
    exact alookup_ainsert_self _ _ _
  · rw [hmod2]

end TerraformSchema

namespace TerraformSchema

/-- Specification-side description for C8: the required_version value one
block contributes to the required-core sequence (at most one, and only when
the attribute decodes as a static literal). -/
def blockRequiredVersions (b : Block) : List String :=
  if b.typ = "terraform" then
    match alookup b.attrs "required_version" with
    | none => []
    | some a =>
        match (decodeExpressionToString a.expr a.range).fst with
        | some v => [v]
        | none => []
  else []

/-- Specification-side description for C8: the decoded required_version
values of a block list, in encounter order. -/
def blocksRequiredVersions : List Block → List String
  | [] => []
  | b :: rest => blockRequiredVersions b ++ blocksRequiredVersions rest

/-- Specification-side description for C8: the decoded required_version
values a file contributes, in encounter order. -/
def fileRequiredVersions (file : List Block) : List String :=
  blocksRequiredVersions (file.filter rootSchemaAllows)

theorem mergeProviderRequirement_RequiredCore (m : decodedModule) (dr : Nat)
    (n : String) (req : providerRequirement) :
    (mergeProviderRequirement m dr n req).fst.RequiredCore = m.RequiredCore := by
  unfold mergeProviderRequirement
  repeat' split
  all_goals rfl

theorem foldl_mergeStep_RequiredCore (dr : Nat) (reqs : List (String × providerRequirement)) :
    ∀ acc : decodedModule × List Diagnostic,
      (reqs.foldl (mergeStep dr) acc).fst.RequiredCore = acc.fst.RequiredCore := by
  induction reqs with
  | nil => intro acc; rfl
  | cons nr rest ih =>
      intro acc
      rw [List.foldl_cons, ih]
      exact mergeProviderRequirement_RequiredCore acc.fst dr nr.fst nr.snd

theorem foldl_rpStep_RequiredCore (bs : List Block) :
    ∀ acc : decodedModule × List Diagnostic,
      (bs.foldl requiredProvidersStep acc).fst.RequiredCore = acc.fst.RequiredCore := by
  induction bs with
  | nil => intro acc; rfl
  | cons ib rest ih =>
      intro acc
      rw [List.foldl_cons, ih]
      exact foldl_mergeStep_RequiredCore ib.defRange (decodeRequiredProvidersBlock ib).fst
        (acc.fst, [])

theorem processProviderBlock_RequiredCore (m : decodedModule) (b : Block) :
    (processProviderBlock m b).fst.RequiredCore = m.RequiredCore := by
  unfold processProviderBlock
  rcases h1 : alookup m.ProviderRequirements (b.labels.headD "") with _ | ex <;>
    simp only [h1] <;>
    (repeat' split) <;>
    simp

theorem processDataBlock_RequiredCore (m : decodedModule) (b : Block) :
    (processDataBlock m b).fst.RequiredCore = m.RequiredCore := by
  unfold processDataBlock
  repeat' split
  all_goals rfl

theorem processResourceBlock_RequiredCore (m : decodedModule) (b : Block) :
    (processResourceBlock m b).fst.RequiredCore = m.RequiredCore := by
  unfold processResourceBlock
  repeat' split
  all_goals rfl

theorem processModuleBlock_RequiredCore (m : decodedModule) (b : Block) :
    (processModuleBlock m b).fst.RequiredCore = m.RequiredCore := by
  unfold processModuleBlock
  repeat' split
  all_goals rfl

theorem processBlock_RequiredCore (m : decodedModule) (b : Block) :
    (processBlock m b).fst.RequiredCore = m.RequiredCore ++ blockRequiredVersions b := by
  by_cases ht : b.typ = "terraform"
  · unfold processBlock blockRequiredVersions
    rw [if_pos ht, if_pos ht]
    unfold processTerraformBlock
    rw [foldl_rpStep_RequiredCore]
    rcases halook : alookup b.attrs "required_version" with _ | a
    · simp [halook]
    · rcases hos : decodeExpressionToString a.expr a.range with ⟨os, ds⟩
      rcases os with _ | v <;> simp [halook, hos]
  · unfold processBlock blockRequiredVersions
    rw [if_neg ht, if_neg ht]
    by_cases h2 : b.typ = "provider"
    · rw [if_pos h2, processProviderBlock_RequiredCore]
      simp
    · rw [if_neg h2]
      by_cases h3 : b.typ = "data"
      · rw [if_pos h3, processDataBlock_RequiredCore]
        simp
      · rw [if_neg h3]
        by_cases h4 : b.typ = "resource"
        · rw [if_pos h4, processResourceBlock_RequiredCore]
          simp
        · rw [if_neg h4]
          by_cases h5 : b.typ = "module"
          · rw [if_pos h5, processModuleBlock_RequiredCore]
            simp
          · rw [if_neg h5]
            simp

theorem foldl_dispatchStep_RequiredCore (bs : List Block) :
    ∀ acc : decodedModule × List Diagnostic,
      (bs.foldl dispatchStep acc).fst.RequiredCore =
        acc.fst.RequiredCore ++ blocksRequiredVersions bs := by
  induction bs with
  | nil => intro acc; simp [blocksRequiredVersions]
  | cons b rest ih =>
      intro acc
      rw [List.foldl_cons, ih]
      simp only [dispatchStep]
      rw [processBlock_RequiredCore]
      simp [blocksRequiredVersions, List.append_assoc]

theorem decode_none_diag (e : Expr) (r : Nat) :
    (decodeExpressionToString e r).fst = none → (decodeExpressionToString e r).snd ≠ [] := by
  cases e <;> simp [decodeExpressionToString]

/-- C8: across any block list fed into an accumulator, the required-core
sequence ends up as the prior sequence followed by exactly the decoded
required_version literals in encounter order (no deduplication); a
required_version whose expression is not a static literal leaves the
accumulator unchanged and produces a non-empty diagnostic list. -/
theorem c8_required_version_order (file : List Block) (mod : decodedModule) :
    ((loadModuleFromFile file mod).fst.RequiredCore =
      mod.RequiredCore ++ fileRequiredVersions file) ∧
    (∀ (e : Expr) (r dr : Nat), (decodeExpressionToString e r).fst = none →
      processTerraformBlock mod
          (Block.mk "terraform" [] dr [("required_version", { expr := e, range := r })] []) =
        (mod, (decodeExpressionToString e r).snd) ∧
      (decodeExpressionToString e r).snd ≠ []) := by
  constructor
  · unfold loadModuleFromFile fileRequiredVersions
    exact foldl_dispatchStep_RequiredCore _ _
  · intro e r dr hdec
    refine ⟨?_, decode_none_diag e r hdec⟩
    unfold processTerraformBlock
    rcases hos : decodeExpressionToString e r with ⟨os, ds⟩
    rw [hos] at hdec
    simp only at hdec
    subst hdec
    simp [Block.attrs, Block.blocks, alookup, hos]

/-- Witness for c8_required_version_order: two identical literal versions are
both appended in order over the empty accumulator, and a traversal-valued
required_version is rejected with a diagnostic. -/
theorem c8_required_version_order_witness :
    ((loadModuleFromFile
        [Block.mk "terraform" [] 0 [("required_version", { expr := Expr.strLit "1.0", range := 1 })] [],
         Block.mk "terraform" [] 2 [("required_version", { expr := Expr.strLit "1.0", range := 3 })] []]
        newDecodedModule).fst.RequiredCore =
      newDecodedModule.RequiredCore ++ fileRequiredVersions
        [Block.mk "terraform" [] 0 [("required_version", { expr := Expr.strLit "1.0", range := 1 })] [],
         Block.mk "terraform" [] 2 [("required_version", { expr := Expr.strLit "1.0", range := 3 })] []]) ∧
    (processTerraformBlock newDecodedModule
        (Block.mk "terraform" [] 4 [("required_version", { expr := Expr.other 0, range := 5 })] []) =
      (newDecodedModule, (decodeExpressionToString (Expr.other 0) 5).snd) ∧
     (decodeExpressionToString (Expr.other 0) 5).snd ≠ []) :=
  ⟨(c8_required_version_order
      [Block.mk "terraform" [] 0 [("required_version", { expr := Expr.strLit "1.0", range := 1 })] [],
       Block.mk "terraform" [] 2 [("required_version", { expr := Expr.strLit "1.0", range := 3 })] []]
      newDecodedModule).1,
   (c8_required_version_order [] newDecodedModule).2 (Expr.other 0) 5 4 rfl⟩

end TerraformSchema

namespace TerraformSchema

/-- C9: a module block always stores a module-call record named after its
first label under key "module." ++ name; a decodable source attribute fills
Source with no diagnostics, a failing decode surfaces the decode diagnostics
while the stored record keeps an empty Source. -/
theorem c9_module_call_record (mod : decodedModule) (dr : Nat) (n : String)
    (ats : List (String × Attribute)) (bks : List Block) :
    (∃ ms : ModuleSource,
      alookup (processModuleBlock mod (Block.mk "module" [n] dr ats bks)).fst.ModuleSources
        ("module." ++ n) = some ms ∧ ms.Name = n) ∧
    (alookup ats "source" = none →
      processModuleBlock mod (Block.mk "module" [n] dr ats bks) =
        ({ mod with ModuleSources := ainsert mod.ModuleSources ("module." ++ n) { Source := "", Name := n } }, [])) ∧
    (∀ a s, alookup ats "source" = some a →
      (decodeExpressionToString a.expr a.range).fst = some s →
      processModuleBlock mod (Block.mk "module" [n] dr ats bks) =
        ({ mod with ModuleSources := ainsert mod.ModuleSources ("module." ++ n) { Source := s, Name := n } }, [])) ∧
    (∀ a, alookup ats "source" = some a →
      (decodeExpressionToString a.expr a.range).fst = none →
      processModuleBlock mod (Block.mk "module" [n] dr ats bks) =
        ({ mod with ModuleSources := ainsert mod.ModuleSources ("module." ++ n) { Source := "", Name := n } },
         (decodeExpressionToString a.expr a.range).snd) ∧
      (decodeExpressionToString a.expr a.range).snd ≠ []) := by
  refine ⟨?_, ?_, ?_, ?_⟩
  · rcases h : alookup ats "source" with _ | a
    · exact ⟨{ Source := "", Name := n },
        by simp [processModuleBlock, Block.attrs, Block.labels, h, ModuleSource.MapKey,
          alookup_ainsert_self], rfl⟩
    · rcases hd : decodeExpressionToString a.expr a.range with ⟨os, ds⟩
      rcases os with _ | s
      · exact ⟨{ Source := "", Name := n },
          by simp [processModuleBlock, Block.attrs, Block.labels, h, hd, ModuleSource.MapKey,
            alookup_ainsert_self], rfl⟩
      · exact ⟨{ Source := s, Name := n },
          by simp [processModuleBlock, Block.attrs, Block.labels, h, hd, ModuleSource.MapKey,
            alookup_ainsert_self], rfl⟩
  · intro h
    simp [processModuleBlock, Block.attrs, Block.labels, h, ModuleSource.MapKey]
  · intro a s h hd2
    rcases hd : decodeExpressionToString a.expr a.range with ⟨os, ds⟩
    rw [hd] at hd2
    simp only at hd2
    subst hd2
    simp [processModuleBlock, Block.attrs, Block.labels, h, hd, ModuleSource.MapKey]
  · intro a h hd2
    have hne := decode_none_diag a.expr a.range hd2
    rcases hd : decodeExpressionToString a.expr a.range with ⟨os, ds⟩
    rw [hd] at hd2 hne
    simp only at hd2
    subst hd2
    refine ⟨?_, hne⟩
    simp [processModuleBlock, Block.attrs, Block.labels, h, hd, ModuleSource.MapKey]

/-- Witness for c9_module_call_record: a decodable literal source and a
non-decodable source at concrete inputs. -/
theorem c9_module_call_record_witness :
    processModuleBlock newDecodedModule
        (Block.mk "module" ["net"] 0 [("source", { expr := Expr.strLit "./net", range := 1 })] []) =
      ({ newDecodedModule with ModuleSources := ainsert newDecodedModule.ModuleSources ("module." ++ "net") { Source := "./net", Name := "net" } }, []) ∧
    (processModuleBlock newDecodedModule
        (Block.mk "module" ["net"] 2 [("source", { expr := Expr.other 1, range := 3 })] []) =
      ({ newDecodedModule with ModuleSources := ainsert newDecodedModule.ModuleSources ("module." ++ "net") { Source := "", Name := "net" } },
       (decodeExpressionToString (Expr.other 1) 3).snd) ∧
     (decodeExpressionToString (Expr.other 1) 3).snd ≠ []) :=
  ⟨(c9_module_call_record newDecodedModule 0 "net"
      [("source", { expr := Expr.strLit "./net", range := 1 })] []).2.2.1
      { expr := Expr.strLit "./net", range := 1 } "./net" rfl rfl,
   (c9_module_call_record newDecodedModule 2 "net"
      [("source", { expr := Expr.other 1, range := 3 })] []).2.2.2
      { expr := Expr.other 1, range := 3 } rfl rfl⟩

end TerraformSchema

namespace TerraformSchema

/-- Key-set growth between two association lists: every key present before is
present after. -/
def KeysGrow {α : Type} (l l2 : List (String × α)) : Prop :=
  ∀ k, (alookup l k).isSome → (alookup l2 k).isSome

/-- Requirement growth: every stored requirement keeps its key, and its
version-constraint sequence is only ever appended to. -/
def ReqsGrow (l l2 : List (String × providerRequirement)) : Prop :=
  ∀ k r, alookup l k = some r →
    ∃ r2, alookup l2 k = some r2 ∧
      ∃ t, r2.VersionConstraints = r.VersionConstraints ++ t

/-- Accumulator growth: the required-core sequence is only appended to, no key
is deleted from any of the five maps, and every pre-existing provider
requirement's constraint sequence is only appended to. -/
def ModGrows (m m2 : decodedModule) : Prop :=
  (∃ t, m2.RequiredCore = m.RequiredCore ++ t) ∧
  KeysGrow m.ProviderRequirements m2.ProviderRequirements ∧
  ReqsGrow m.ProviderRequirements m2.ProviderRequirements ∧
  KeysGrow m.ProviderConfigs m2.ProviderConfigs ∧
  KeysGrow m.Resources m2.Resources ∧
  KeysGrow m.DataSources m2.DataSources ∧
  KeysGrow m.ModuleSources m2.ModuleSources

theorem keysGrowRefl {α : Type} (l : List (String × α)) : KeysGrow l l :=
  fun _ h => h

theorem keysGrowTrans {α : Type} {l1 l2 l3 : List (String × α)}
    (h1 : KeysGrow l1 l2) (h2 : KeysGrow l2 l3) : KeysGrow l1 l3 :=
  fun k h => h2 k (h1 k h)

theorem reqsGrowRefl (l : List (String × providerRequirement)) : ReqsGrow l l :=
  fun _ r h => ⟨r, h, [], by simp⟩

theorem reqsGrowTrans {l1 l2 l3 : List (String × providerRequirement)}
    (h1 : ReqsGrow l1 l2) (h2 : ReqsGrow l2 l3) : ReqsGrow l1 l3 := by
  intro k r h
  obtain ⟨r2, hr2, t, ht⟩ := h1 k r h
  obtain ⟨r3, hr3, t2, ht2⟩ := h2 k r2 hr2
  exact ⟨r3, hr3, t ++ t2, by rw [ht2, ht, List.append_assoc]⟩

theorem modGrowsRefl (m : decodedModule) : ModGrows m m :=
  ⟨⟨[], by simp⟩, keysGrowRefl _, reqsGrowRefl _, keysGrowRefl _, keysGrowRefl _,
   keysGrowRefl _, keysGrowRefl _⟩

theorem modGrowsTrans {m1 m2 m3 : decodedModule} (h1 : ModGrows m1 m2)
    (h2 : ModGrows m2 m3) : ModGrows m1 m3 := by
  obtain ⟨⟨t1, e1⟩, kg1, rg1, pc1, rs1, ds1, ms1⟩ := h1
  obtain ⟨⟨t2, e2⟩, kg2, rg2, pc2, rs2, ds2, ms2⟩ := h2
  exact ⟨⟨t1 ++ t2, by rw [e2, e1, List.append_assoc]⟩, keysGrowTrans kg1 kg2,
    reqsGrowTrans rg1 rg2, keysGrowTrans pc1 pc2, keysGrowTrans rs1 rs2,
    keysGrowTrans ds1 ds2, keysGrowTrans ms1 ms2⟩

theorem keysGrow_ainsert {α : Type} (l : List (String × α)) (k : String) (v : α) :
    KeysGrow l (ainsert l k v) := by
  intro key h
  rw [alookup_ainsert]
  by_cases hk : k = key
  · rw [if_pos hk]
    simp
  · rw [if_neg hk]
    exact h

theorem reqsGrow_ainsert_new (l : List (String × providerRequirement)) (name : String)
    (hnew : alookup l name = none) (req : providerRequirement) :
    ReqsGrow l (ainsert l name req) := by
  intro k r h
  by_cases hk : name = k
  · subst hk
    rw [hnew] at h
    exact Option.noConfusion h
  · exact ⟨r, by rw [alookup_ainsert, if_neg hk]; exact h, [], by simp⟩

theorem reqsGrow_ainsert_append (l : List (String × providerRequirement)) (name : String)
    (ex : providerRequirement) (hex : alookup l name = some ex) (tail : List String)
    (src : String) :
    ReqsGrow l (ainsert l name
      { Source := src, VersionConstraints := ex.VersionConstraints ++ tail }) := by
  intro k r h
  by_cases hk : name = k
  · subst hk
    rw [hex] at h
    injection h with h
    subst h
    exact ⟨{ Source := src, VersionConstraints := ex.VersionConstraints ++ tail },
      by rw [alookup_ainsert, if_pos rfl], tail, rfl⟩
  · exact ⟨r, by rw [alookup_ainsert, if_neg hk]; exact h, [], by simp⟩

theorem mergeProviderRequirement_existing (m : decodedModule) (dr : Nat) (n : String)
    (req ex : providerRequirement) (hex : alookup m.ProviderRequirements n = some ex) :
    ∃ src, (mergeProviderRequirement m dr n req).fst =
      { m with ProviderRequirements := ainsert m.ProviderRequirements n { Source := src, VersionConstraints := ex.VersionConstraints ++ req.VersionConstraints } } := by
  unfold mergeProviderRequirement
  simp only [hex]
  by_cases h1 : req.Source = ""
  · exact ⟨ex.Source, by simp [h1]⟩
  · by_cases h2 : ex.Source ≠ "" ∧ ex.Source ≠ req.Source
    · exact ⟨ex.Source, by simp [h1, h2]⟩
    · exact ⟨req.Source, by simp [h1, h2]⟩

theorem mergeProviderRequirement_grows (m : decodedModule) (dr : Nat) (n : String)
    (req : providerRequirement) : ModGrows m (mergeProviderRequirement m dr n req).fst := by
  rcases hex : alookup m.ProviderRequirements n with _ | ex
  · have hres : (mergeProviderRequirement m dr n req).fst =
        { m with ProviderRequirements := ainsert m.ProviderRequirements n req } := by
      unfold mergeProviderRequirement
      simp [hex]
    rw [hres]
    exact ⟨⟨[], by simp⟩, keysGrow_ainsert _ _ _, reqsGrow_ainsert_new _ _ hex _,
      keysGrowRefl _, keysGrowRefl _, keysGrowRefl _, keysGrowRefl _⟩
  · obtain ⟨src, hres⟩ := mergeProviderRequirement_existing m dr n req ex hex
    rw [hres]
    exact ⟨⟨[], by simp⟩, keysGrow_ainsert _ _ _, reqsGrow_ainsert_append _ _ _ hex _ _,
      keysGrowRefl _, keysGrowRefl _, keysGrowRefl _, keysGrowRefl _⟩

theorem foldl_mergeStep_grows (dr : Nat) (reqs : List (String × providerRequirement)) :
    ∀ acc : decodedModule × List Diagnostic,
      ModGrows acc.fst (reqs.foldl (mergeStep dr) acc).fst := by
  induction reqs with
  | nil => intro acc; exact modGrowsRefl _
  | cons nr rest ih =>
      intro acc
      rw [List.foldl_cons]
      exact modGrowsTrans (mergeProviderRequirement_grows acc.fst dr nr.fst nr.snd)
        (ih (mergeStep dr acc nr))

theorem foldl_rpStep_grows (bs : List Block) :
    ∀ acc : decodedModule × List Diagnostic,
      ModGrows acc.fst (bs.foldl requiredProvidersStep acc).fst := by
  induction bs with
  | nil => intro acc; exact modGrowsRefl _
  | cons ib rest ih =>
      intro acc
      rw [List.foldl_cons]
      exact modGrowsTrans
        (foldl_mergeStep_grows ib.defRange (decodeRequiredProvidersBlock ib).fst (acc.fst, []))
        (ih (requiredProvidersStep acc ib))

theorem processTerraformBlock_grows (m : decodedModule) (b : Block) :
    ModGrows m (processTerraformBlock m b).fst := by
  unfold processTerraformBlock
  refine modGrowsTrans ?_ (foldl_rpStep_grows _ _)
  rcases halook : alookup b.attrs "required_version" with _ | a
  · simp only [halook]
    exact modGrowsRefl _
  · rcases hd : decodeExpressionToString a.expr a.range with ⟨os, ds⟩
    rcases os with _ | v <;> simp only [halook, hd]
    · exact modGrowsRefl _
    · exact ⟨⟨[v], rfl⟩, keysGrowRefl _, reqsGrowRefl _, keysGrowRefl _, keysGrowRefl _,
        keysGrowRefl _, keysGrowRefl _⟩

theorem processProviderBlock_grows (m : decodedModule) (b : Block) :
    ModGrows m (processProviderBlock m b).fst := by
  unfold processProviderBlock
  rcases h1 : alookup m.ProviderRequirements (b.labels.headD "") with _ | ex <;>
    simp only [h1]
  · rcases h2 : alookup b.attrs "version" with _ | a <;> simp only [h2]
    · exact ⟨⟨[], by simp⟩, keysGrow_ainsert _ _ _, reqsGrow_ainsert_new _ _ h1 _,
        keysGrow_ainsert _ _ _, keysGrowRefl _, keysGrowRefl _, keysGrowRefl _⟩
    · rcases h3 : decodeExpressionToString a.expr a.range with ⟨os, ds⟩
      rcases os with _ | v <;> simp only [h3]
      · exact ⟨⟨[], by simp⟩, keysGrow_ainsert _ _ _, reqsGrow_ainsert_new _ _ h1 _,
          keysGrow_ainsert _ _ _, keysGrowRefl _, keysGrowRefl _, keysGrowRefl _⟩
      · rw [alookup_ainsert_self]
        exact ⟨⟨[], by simp⟩,
          keysGrowTrans (keysGrow_ainsert _ _ _) (keysGrow_ainsert _ _ _),
          reqsGrowTrans (reqsGrow_ainsert_new _ _ h1 _)
            (reqsGrow_ainsert_append _ _ _ (alookup_ainsert_self _ _ _) _ _),
          keysGrow_ainsert _ _ _, keysGrowRefl _, keysGrowRefl _, keysGrowRefl _⟩
  · rcases h2 : alookup b.attrs "version" with _ | a <;> simp only [h2]
    · exact ⟨⟨[], by simp⟩, keysGrowRefl _, reqsGrowRefl _,
        keysGrow_ainsert _ _ _, keysGrowRefl _, keysGrowRefl _, keysGrowRefl _⟩
    · rcases h3 : decodeExpressionToString a.expr a.range with ⟨os, ds⟩
      rcases os with _ | v <;> simp only [h3, h1]
      · exact ⟨⟨[], by simp⟩, keysGrowRefl _, reqsGrowRefl _,
          keysGrow_ainsert _ _ _, keysGrowRefl _, keysGrowRefl _, keysGrowRefl _⟩
      · exact ⟨⟨[], by simp⟩, keysGrow_ainsert _ _ _,
          reqsGrow_ainsert_append _ _ _ h1 _ _,
          keysGrow_ainsert _ _ _, keysGrowRefl _, keysGrowRefl _, keysGrowRefl _⟩

theorem processDataBlock_grows (m : decodedModule) (b : Block) :
    ModGrows m (processDataBlock m b).fst := by
  unfold processDataBlock
  exact ⟨⟨[], by simp⟩, keysGrowRefl _, reqsGrowRefl _, keysGrowRefl _, keysGrowRefl _,
    keysGrow_ainsert _ _ _, keysGrowRefl _⟩

theorem processResourceBlock_grows (m : decodedModule) (b : Block) :
    ModGrows m (processResourceBlock m b).fst := by
  unfold processResourceBlock
  exact ⟨⟨[], by simp⟩, keysGrowRefl _, reqsGrowRefl _, keysGrowRefl _,
    keysGrow_ainsert _ _ _, keysGrowRefl _, keysGrowRefl _⟩

theorem processModuleBlock_grows (m : decodedModule) (b : Block) :
    ModGrows m (processModuleBlock m b).fst := by
  unfold processModuleBlock
  exact ⟨⟨[], by simp⟩, keysGrowRefl _, reqsGrowRefl _, keysGrowRefl _, keysGrowRefl _,
    keysGrowRefl _, keysGrow_ainsert _ _ _⟩

theorem processBlock_grows (m : decodedModule) (b : Block) :
    ModGrows m (processBlock m b).fst := by
  unfold processBlock
  by_cases h1 : b.typ = "terraform"
  · rw [if_pos h1]
    exact processTerraformBlock_grows m b
  · rw [if_neg h1]
    by_cases h2 : b.typ = "provider"
    · rw [if_pos h2]
      exact processProviderBlock_grows m b
    · rw [if_neg h2]
      by_cases h3 : b.typ = "data"
      · rw [if_pos h3]
        exact processDataBlock_grows m b
      · rw [if_neg h3]
        by_cases h4 : b.typ = "resource"
        · rw [if_pos h4]
          exact processResourceBlock_grows m b
        · rw [if_neg h4]
          by_cases h5 : b.typ = "module"
          · rw [if_pos h5]
            exact processModuleBlock_grows m b
          · rw [if_neg h5]
            exact modGrowsRefl _

theorem foldl_dispatchStep_grows (bs : List Block) :
    ∀ acc : decodedModule × List Diagnostic,
      ModGrows acc.fst (bs.foldl dispatchStep acc).fst := by
  induction bs with
  | nil => intro acc; exact modGrowsRefl _
  | cons b rest ih =>
      intro acc
      rw [List.foldl_cons]
      exact modGrowsTrans (processBlock_grows acc.fst b) (ih (dispatchStep acc b))

/-- C10: every loadModuleFromFile invocation only grows the accumulator — the
required-core sequence and every pre-existing requirement's constraint
sequence are only appended to, and no key disappears from any of the five
maps. -/
theorem c10_accumulator_monotone (file : List Block) (mod : decodedModule) :
    ModGrows mod (loadModuleFromFile file mod).fst := by
  unfold loadModuleFromFile
  exact foldl_dispatchStep_grows _ _

/-- Witness for c10_accumulator_monotone: a provider block for an already
tracked provider extends, and never shortens, its constraint sequence. -/
theorem c10_accumulator_monotone_witness :
    ∃ r2, alookup (loadModuleFromFile
        [Block.mk "provider" ["aws"] 0 [("version", { expr := Expr.strLit "~> 3.0", range := 1 })] []]
        { newDecodedModule with ProviderRequirements := [("aws", { Source := "hashicorp/aws", VersionConstraints := ["~> 2.0"] })] }).fst.ProviderRequirements
        "aws" = some r2 ∧
      ∃ t, r2.VersionConstraints = ["~> 2.0"] ++ t :=
  (c10_accumulator_monotone
      [Block.mk "provider" ["aws"] 0 [("version", { expr := Expr.strLit "~> 3.0", range := 1 })] []]
      { newDecodedModule with ProviderRequirements := [("aws", { Source := "hashicorp/aws", VersionConstraints := ["~> 2.0"] })] }).2.2.1
    "aws" { Source := "hashicorp/aws", VersionConstraints := ["~> 2.0"] } rfl

end TerraformSchema
